import Mathlib

/-!
Verification development for the modal-ctf repository: a FastAPI front-end
(server.py), an HMAC-authenticated write-only logging sidecar
(logger/logger_service.py) and a sandboxed execution function
(modal_function.py). The Python code is shallowly embedded below: JSON
values are an inductive type, the Python json.dumps serializer (with
sort_keys and indent) is implemented over it, request handlers become
total Lean functions over explicit request/outcome data, and external
primitives (HMAC-SHA256 hexdigest, the HTTP client, the remote execution
platform, the Python compile/exec/eval machinery) are parameters, so that
every theorem quantifies over their behaviour.
-/

set_option maxRecDepth 4000

mutual
/-- JSON values, mutually defined with list and object spines so that all
recursion over them is structural. Mirrors the Python values handled by
json.dumps in this repository. -/
inductive Json where
  | jnull
  | jbool (b : Bool)
  | jnum (n : Int)
  | jstr (s : String)
  | jarr (xs : JArr)
  | jobj (kvs : JObj)

/-- Spine of a JSON array. -/
inductive JArr where
  | nil
  | cons (hd : Json) (tl : JArr)

/-- Spine of a JSON object: insertion-ordered key/value pairs, as a Python
dict is iterated. -/
inductive JObj where
  | nil
  | cons (k : String) (v : Json) (tl : JObj)
end

deriving instance DecidableEq for Json

deriving instance DecidableEq for JArr

deriving instance DecidableEq for JObj

/-- Double-quote character. -/
def qdq : Char := Char.ofNat 34

/-- Single-quote character. -/
def qsq : Char := Char.ofNat 39

/-- Left-brace character. -/
def lbr : Char := Char.ofNat 123

/-- Right-brace character. -/
def rbr : Char := Char.ofNat 125

/-- Whether one character list starts with another. -/
def lcStarts : List Char → List Char → Bool
  | [], _ => true
  | _ :: _, [] => false
  | a :: as, b :: bs => a = b && lcStarts as bs

/-- Substring test on character lists, needle first: Python `needle in hay`. -/
def lcHas (needle : List Char) : List Char → Bool
  | [] => lcStarts needle []
  | c :: tl => lcStarts needle (c :: tl) || lcHas needle tl

/-- Python `needle in hay` on strings. -/
def strHas (hay needle : String) : Bool := lcHas needle.data hay.data

/-- Python str.lower, restricted to the per-character lowering that is
exact on the ASCII data this repository handles. -/
def pyLower (s : String) : String := String.mk (s.data.map Char.toLower)

/-- Python whitespace test used by str.strip. -/
def pySpace (c : Char) : Bool :=
  c = ' ' || c = Char.ofNat 9 || c = Char.ofNat 10 || c = Char.ofNat 13 ||
  c = Char.ofNat 11 || c = Char.ofNat 12

/-- Python str.strip. -/
def pyStrip (s : String) : String :=
  String.mk (((s.data.dropWhile pySpace).reverse.dropWhile pySpace).reverse)

/-- Code-point lexicographic strict order on character lists, matching the
Python `<` on str used by sorted(). -/
def lcLt : List Char → List Char → Bool
  | [], [] => false
  | [], _ :: _ => true
  | _ :: _, [] => false
  | a :: as, b :: bs => if a < b then true else if b < a then false else lcLt as bs

/-- Strict order on strings for sort_keys. -/
def strLtB (a b : String) : Bool := lcLt a.data b.data

/-- Insert one key/value pair into a key-sorted object spine. -/
def JObj.insert1 (k : String) (v : Json) : JObj → JObj
  | .nil => .cons k v .nil
  | .cons k2 v2 tl =>
    if strLtB k2 k then .cons k2 v2 (JObj.insert1 k v tl)
    else .cons k v (.cons k2 v2 tl)

/-- Insertion sort of an object spine by key, as sorted() over dict items. -/
def JObj.insSort : JObj → JObj
  | .nil => .nil
  | .cons k v tl => JObj.insert1 k v (JObj.insSort tl)

mutual
/-- Recursively sort every object in a JSON value by key: the effect of the
sort_keys=True option of json.dumps. -/
def deepSort : Json → Json
  | .jnull => .jnull
  | .jbool b => .jbool b
  | .jnum n => .jnum n
  | .jstr s => .jstr s
  | .jarr xs => .jarr (deepSortArr xs)
  | .jobj kvs => .jobj (JObj.insSort (deepSortObj kvs))

/-- deepSort mapped over an array spine. -/
def deepSortArr : JArr → JArr
  | .nil => .nil
  | .cons x tl => .cons (deepSort x) (deepSortArr tl)

/-- deepSort mapped over the values of an object spine. -/
def deepSortObj : JObj → JObj
  | .nil => .nil
  | .cons k v tl => .cons k (deepSort v) (deepSortObj tl)
end

/-- Lowercase hexadecimal digit. -/
def hexDig (n : Nat) : Char :=
  if n < 10 then Char.ofNat (48 + n) else Char.ofNat (87 + n)

/-- Four lowercase hex digits, as in a Python \uXXXX escape. -/
def hex4 (n : Nat) : String :=
  String.mk [hexDig (n / 4096 % 16), hexDig (n / 256 % 16), hexDig (n / 16 % 16), hexDig (n % 16)]

/-- The \uXXXX escape of one code point, with a surrogate pair above the
basic plane, as json.dumps with ensure_ascii=True produces. -/
def uEscape (n : Nat) : String :=
  if n ≤ 65535 then "\\u" ++ hex4 n
  else
    let m := n - 65536
    "\\u" ++ hex4 (55296 + m / 1024) ++ "\\u" ++ hex4 (56320 + m % 1024)

/-- Escape one character the way the json.dumps ASCII encoder does: the two
structural escapes, the short control escapes, and \uXXXX for everything
outside the printable ASCII range. -/
def escChar (c : Char) : String :=
  if c = qdq then "\\\""
  else if c = '\\' then "\\\\"
  else if c = Char.ofNat 10 then "\\n"
  else if c = Char.ofNat 9 then "\\t"
  else if c = Char.ofNat 13 then "\\r"
  else if c = Char.ofNat 8 then "\\b"
  else if c = Char.ofNat 12 then "\\f"
  else if c.toNat < 32 || c.toNat > 126 then uEscape c.toNat
  else String.mk [c]

/-- Serialize a string as a JSON string literal. -/
def quoteStr (s : String) : String :=
  "\"" ++ String.join (s.data.map escChar) ++ "\""

mutual
/-- Serialize a JSON value without reordering keys, with the default
compact separators of json.dumps: item separator comma-space, key
separator colon-space. -/
def dumpsRaw : Json → String
  | .jnull => "null"
  | .jbool true => "true"
  | .jbool false => "false"
  | .jnum n => toString n
  | .jstr s => quoteStr s
  | .jarr xs => "[" ++ dumpsRawArr xs ++ "]"
  | .jobj kvs => String.mk [lbr] ++ dumpsRawObj kvs ++ String.mk [rbr]

/-- Serialize the elements of an array spine. -/
def dumpsRawArr : JArr → String
  | .nil => ""
  | .cons x .nil => dumpsRaw x
  | .cons x (.cons y tl) => dumpsRaw x ++ ", " ++ dumpsRawArr (.cons y tl)

/-- Serialize the entries of an object spine. -/
def dumpsRawObj : JObj → String
  | .nil => ""
  | .cons k v .nil => quoteStr k ++ ": " ++ dumpsRaw v
  | .cons k v (.cons k2 v2 tl) =>
    quoteStr k ++ ": " ++ dumpsRaw v ++ ", " ++ dumpsRawObj (.cons k2 v2 tl)
end

/-- Python json.dumps with the optional sort_keys flag and no indent. -/
def pyDumps (sortKeys : Bool) (j : Json) : String :=
  dumpsRaw (if sortKeys then deepSort j else j)

/-- Spaces of the given indentation depth at indent=2. -/
def pad (lvl : Nat) : String := String.mk (List.replicate (2 * lvl) ' ')

mutual
/-- Serialize a JSON value as json.dumps with indent=2 does, keys in
insertion order (sort_keys is not passed at the indenting call sites of
this repository). -/
def dumpsInd (lvl : Nat) : Json → String
  | .jnull => "null"
  | .jbool true => "true"
  | .jbool false => "false"
  | .jnum n => toString n
  | .jstr s => quoteStr s
  | .jarr .nil => "[]"
  | .jarr (.cons x tl) =>
    "[\n" ++ dumpsIndArr (lvl + 1) (.cons x tl) ++ "\n" ++ pad lvl ++ "]"
  | .jobj .nil => String.mk [lbr, rbr]
  | .jobj (.cons k v tl) =>
    String.mk [lbr] ++ "\n" ++ dumpsIndObj (lvl + 1) (.cons k v tl) ++ "\n" ++
      pad lvl ++ String.mk [rbr]

/-- Indented serialization of array elements. -/
def dumpsIndArr (lvl : Nat) : JArr → String
  | .nil => ""
  | .cons x .nil => pad lvl ++ dumpsInd lvl x
  | .cons x (.cons y tl) =>
    pad lvl ++ dumpsInd lvl x ++ ",\n" ++ dumpsIndArr lvl (.cons y tl)

/-- Indented serialization of object entries. -/
def dumpsIndObj (lvl : Nat) : JObj → String
  | .nil => ""
  | .cons k v .nil => pad lvl ++ quoteStr k ++ ": " ++ dumpsInd lvl v
  | .cons k v (.cons k2 v2 tl) =>
    pad lvl ++ quoteStr k ++ ": " ++ dumpsInd lvl v ++ ",\n" ++
      dumpsIndObj lvl (.cons k2 v2 tl)
end

/-- Python json.dumps with indent=2. -/
def pyDumpsInd2 (j : Json) : String := dumpsInd 0 j

/-! ## Object helpers mirroring Python dict operations -/

/-- Dict comprehension dropping one key, as in verify_hmac of
logger_service.py: every pair whose key differs is kept in order. -/
def JObj.removeKey (key : String) : JObj → JObj
  | .nil => .nil
  | .cons k v tl =>
    if k = key then JObj.removeKey key tl
    else .cons k v (JObj.removeKey key tl)

/-- Python dict.get with a default. -/
def JObj.getD (key : String) (dflt : Json) : JObj → Json
  | .nil => dflt
  | .cons k v tl => if k = key then v else JObj.getD key dflt tl

/-- First value stored under a key, if any. -/
def JObj.find? (key : String) : JObj → Option Json
  | .nil => none
  | .cons k v tl => if k = key then some v else JObj.find? key tl

/-- Append one pair at the end, as assigning a fresh key into a dict. -/
def JObj.snoc (o : JObj) (key : String) (v : Json) : JObj :=
  match o with
  | .nil => .cons key v .nil
  | .cons k w tl => .cons k w (JObj.snoc tl key v)

/-- Keys of an object spine in order. -/
def JObj.keys : JObj → List String
  | .nil => []
  | .cons k _ tl => k :: JObj.keys tl

/-! ## Logger sidecar: logger/logger_service.py

The HMAC-SHA256 hex digest primitive (hmac.new plus hexdigest over the
UTF-8 encodings of secret and message) is external to the repository and
enters every definition as a parameter hmacHex taking the secret and the
message. hmac.compare_digest is modelled by its documented semantics,
equality of the digest strings. -/

/-- The pydantic LogEntry model of logger_service.py. -/
structure LogEntry where
  code : String
  output : JObj
  client_ip : String
  user_agent : String
  hmac_signature : String

/-- entry.model_dump(): the field values as a dict in declaration order. -/
def modelDump (e : LogEntry) : JObj :=
  .cons "code" (.jstr e.code)
    (.cons "output" (.jobj e.output)
      (.cons "client_ip" (.jstr e.client_ip)
        (.cons "user_agent" (.jstr e.user_agent)
          (.cons "hmac_signature" (.jstr e.hmac_signature) .nil))))

/-- verify_hmac of logger_service.py: drop the hmac_signature field,
serialize with sort_keys, recompute the keyed digest and compare. -/
def verify_hmac (hmacHex : String → String → String) (secret : String)
    (data : JObj) (signature : String) : Bool :=
  let dataCopy := JObj.removeKey "hmac_signature" data
  let message := pyDumps true (.jobj dataCopy)
  let expected := hmacHex secret message
  signature == expected

/-- Filesystem effects the log_entry handler performs. -/
inductive FsOp where
  | mkdir (path : String) (mode : Nat)
  | writeText (path : String) (content : String)
  | chmod (path : String) (mode : Nat)
deriving DecidableEq

/-- One stored file of the log volume. -/
structure FsFile where
  path : String
  content : String
  mode : Nat
deriving DecidableEq

/-- The log volume contents. -/
abbrev FsState := List FsFile

/-- Effect of one filesystem operation on the stored files. mkdir touches
no file; write_text creates or overwrites; chmod updates the mode of the
named file. -/
def applyOp (fs : FsState) : FsOp → FsState
  | .mkdir _ _ => fs
  | .writeText p c =>
    if (fs.map FsFile.path).contains p then
      fs.map (fun f => if f.path = p then { f with content := c } else f)
    else fs ++ [⟨p, c, 420⟩]
  | .chmod p m => fs.map (fun f => if f.path = p then { f with mode := m } else f)

/-- Run operations in order against a success oracle, as the try block of
log_entry does: the first failing operation aborts the sequence. Returns
the attempted operations, the resulting state and whether all succeeded. -/
def runOps (fsOk : FsOp → Bool) (fs : FsState) : List FsOp → List FsOp × FsState × Bool
  | [] => ([], fs, true)
  | op :: rest =>
    if fsOk op then
      let r := runOps fsOk (applyOp fs op) rest
      (op :: r.1, r.2.1, r.2.2)
    else ([op], fs, false)

/-- The metadata dict built by log_entry from the validated entry. -/
def metadataJson (isoTs : String) (entry : LogEntry) : Json :=
  .jobj (.cons "timestamp" (.jstr isoTs)
    (.cons "client_ip" (.jstr entry.client_ip)
      (.cons "user_agent" (.jstr entry.user_agent)
        (.cons "output_success" (JObj.getD "success" (.jbool false) entry.output)
          (.cons "mode" (JObj.getD "mode" (.jstr "unknown") entry.output) .nil)))))

/-- The filesystem operations of the try block of log_entry, in program
order: create /logs, then write and chmod the metadata, input and output
files derived from the strftime timestamp. -/
def logOps (ts isoTs : String) (entry : LogEntry) : List FsOp :=
  [ .mkdir "/logs" 0o750,
    .writeText ("/logs/" ++ ts ++ "-metadata.json") (pyDumpsInd2 (metadataJson isoTs entry)),
    .chmod ("/logs/" ++ ts ++ "-metadata.json") 0o640,
    .writeText ("/logs/" ++ ts ++ "-input.txt") entry.code,
    .chmod ("/logs/" ++ ts ++ "-input.txt") 0o640,
    .writeText ("/logs/" ++ ts ++ "-output.json") (pyDumpsInd2 (.jobj entry.output)),
    .chmod ("/logs/" ++ ts ++ "-output.json") 0o640 ]

/-- Outcome of one POST /log request: the HTTP response (an HTTPException
status and detail, or the success body), the filesystem operations that
were attempted, and the resulting log volume. -/
structure LogOutcome where
  response : Except (Nat × String) Json
  performed : List FsOp
  fs : FsState

/-- The log_entry handler of logger_service.py. The strftime and isoformat
timestamps and the success of each filesystem operation are parameters
standing for the clock and the disk. -/
def log_entry (hmacHex : String → String → String) (secret : String)
    (fsOk : FsOp → Bool) (ts isoTs : String) (entry : LogEntry)
    (fs : FsState) : LogOutcome :=
  if !(verify_hmac hmacHex secret (modelDump entry) entry.hmac_signature) then
    { response := .error (403, "Invalid signature"), performed := [], fs := fs }
  else
    let ops := logOps ts isoTs entry
    let r := runOps fsOk fs ops
    if r.2.2 then
      { response := .ok (.jobj (.cons "status" (.jstr "logged")
          (.cons "timestamp" (.jstr ts) .nil))),
        performed := r.1, fs := r.2.1 }
    else
      { response := .error (500, "Logging failed"), performed := r.1, fs := r.2.1 }

/-- The GET /health handler of logger_service.py: a constant body reading
nothing from the log volume. -/
def health (_fs : FsState) : Json :=
  .jobj (.cons "status" (.jstr "healthy") .nil)

/-- The complete route table of the logger service: method and path of
every registered endpoint. -/
def loggerRoutes : List (String × String) := [("POST", "/log"), ("GET", "/health")]

/-! ## Front-end: server.py

strip_quotes and get_env appear verbatim in both server.py and
logger_service.py; one embedding serves both. The environment is a lookup
function, the HTTP client and the remote execution platform are outcome
parameters, and a Python exception is its class name, its str() message
and its formatted traceback. -/

/-- A Python exception as the handlers observe it: type name, str() text
and traceback.format_exc() text. -/
structure PyExn where
  name : String
  msg : String
  tb : String
deriving DecidableEq

/-- Character-level body of strip_quotes: the truthiness and length guard
of line 22 of server.py is the two-cons pattern, the quote comparison is
on the first and last character, and the slice 1:-1 is drop one then
dropLast. -/
def stripQuotesCore : List Char → List Char
  | c0 :: c1 :: rest =>
    let cl := List.getLastD (c1 :: rest) c0
    if (c0 = qdq ∧ cl = qdq) ∨ (c0 = qsq ∧ cl = qsq) then (c1 :: rest).dropLast
    else c0 :: c1 :: rest
  | l => l

/-- strip_quotes of server.py and logger_service.py: drop the first and
last character when the value has length at least two and both are the
same kind of quote. -/
def strip_quotes (value : String) : String :=
  String.mk (stripQuotesCore value.data)

/-- get_env of server.py and logger_service.py over an abstract process
environment: look the key up, fall back to the default, and strip quotes
only from a present value. -/
def get_env (env : String → Option String) (key : String)
    (dflt : Option String) : Option String :=
  let value := match env key with
    | some v => some v
    | none => dflt
  match value with
  | some v => some (strip_quotes v)
  | none => none

/-- Python falsiness of the optional LOGGER_URL: unset or empty. -/
def pyFalsyOptStr : Option String → Bool
  | none => true
  | some s => s == ""

/-- The log_data dict built by log_to_sidecar before signing. -/
def logDataOf (code : Json) (output : JObj) (clientIp userAgent : String) : JObj :=
  .cons "code" code
    (.cons "output" (.jobj output)
      (.cons "client_ip" (.jstr clientIp)
        (.cons "user_agent" (.jstr userAgent) .nil)))

/-- The signature log_to_sidecar computes: the keyed digest of the
sort_keys serialization of the four-field log_data dict. -/
def frontSignature (hmacHex : String → String → String) (secret : String)
    (code : Json) (output : JObj) (clientIp userAgent : String) : String :=
  hmacHex secret (pyDumps true (.jobj (logDataOf code output clientIp userAgent)))

/-- log_to_sidecar of server.py. httpPost stands for the httpx POST call
and yields either a status and body text or a raised exception; every
exception of the try block is caught and only printed, so the function
itself returns a value on every path. -/
def log_to_sidecar (hmacHex : String → String → String) (secret : String)
    (loggerUrl : Option String)
    (httpPost : String → JObj → Except PyExn (Nat × String))
    (code : Json) (output : JObj) (clientIp userAgent : String) :
    Except PyExn Unit :=
  if pyFalsyOptStr loggerUrl then .ok ()
  else
    let logData := logDataOf code output clientIp userAgent
    let signature := frontSignature hmacHex secret code output clientIp userAgent
    let payload := JObj.snoc logData "hmac_signature" (.jstr signature)
    let attempt : Except PyExn Unit :=
      match httpPost (loggerUrl.getD "" ++ "/log") payload with
      | .ok _ => .ok ()
      | .error e => .error e
    match attempt with
    | .ok u => .ok u
    | .error _ => .ok ()

/-- A POST /execute request as the handler reads it: the content-type
header, the outcome of await request.json(), the outcome of reading the
body and decoding it as UTF-8, and the client metadata. -/
structure ExecRequest where
  contentType : String
  jsonBody : Except PyExn Json
  rawBody : Except PyExn String
  clientIp : String
  userAgent : String

/-- Lines 170 to 179 of server.py: choose the code value from the request.
A JSON content type reads the "code" field of the JSON body with default
empty string (and a non-dict body fails the .get attribute lookup); any
other content type takes the UTF-8 decoded raw body. -/
def extractCode (req : ExecRequest) : Except PyExn Json :=
  let ct := pyLower req.contentType
  if strHas ct "application/json" then
    match req.jsonBody with
    | .ok (.jobj kvs) => .ok (JObj.getD "code" (.jstr "") kvs)
    | .ok _ => .error ⟨"AttributeError", "object has no attribute get", ""⟩
    | .error e => .error e
  else
    match req.rawBody with
    | .ok s => .ok (.jstr s)
    | .error e => .error e

/-- Mode string reported by the server. -/
def modeStr (vuln : Bool) : String := if vuln then "vulnerable" else "secure"

/-- The success response_data dict of execute_code. -/
def successResponseData (vuln : Bool) (result : JObj) : JObj :=
  .cons "success" (.jbool true)
    (.cons "result" (JObj.getD "result" .jnull result)
      (.cons "output" (JObj.getD "output" .jnull result)
        (.cons "error" (JObj.getD "error" .jnull result)
          (.cons "mode" (.jstr (modeStr vuln)) .nil))))

/-- The error response_data dict of the except block of execute_code,
including the firewall_blocked field and the conditional hint. -/
def errorResponseData (vuln : Bool) (e : PyExn) : JObj :=
  let errorMessage := e.msg
  let isFw := strHas (pyLower errorMessage) "rffickle" ||
              strHas (pyLower errorMessage) "firewall"
  let base : JObj :=
    .cons "success" (.jbool false)
      (.cons "error" (.jstr ("Failed to execute code: " ++ errorMessage))
        (.cons "details" (.jstr e.name)
          (.cons "mode" (.jstr (modeStr vuln))
            (.cons "firewall_blocked" (.jbool (isFw && !vuln)) .nil))))
  if isFw && !vuln then
    JObj.snoc base "hint"
      (.jstr "The pickle firewall blocked your attack. This is expected in secure mode!")
  else base

/-- An HTTP response of the execute handler: status code and JSON body. -/
structure HandlerResult where
  status : Nat
  body : Json
deriving DecidableEq

/-- The UnboundLocalError raised when the except block of execute_code
reads the local variable code before any assignment to it. -/
def unboundLocalExn : PyExn :=
  ⟨"UnboundLocalError", "local variable referenced before assignment: code", ""⟩

/-- The except block of execute_code (lines 208 to 228 of server.py) for
an exception raised after the local code was assigned: build the error
response_data, log it, and answer 500; a logging failure would escape. -/
def executeExcept (hmacHex : String → String → String) (secret : String)
    (loggerUrl : Option String)
    (httpPost : String → JObj → Except PyExn (Nat × String))
    (vuln : Bool) (code : Json) (req : ExecRequest) (e : PyExn) :
    Except PyExn HandlerResult :=
  let responseData := errorResponseData vuln e
  match log_to_sidecar hmacHex secret loggerUrl httpPost code responseData
      req.clientIp req.userAgent with
  | .ok _ => .ok ⟨500, .jobj responseData⟩
  | .error e2 => .error e2

/-- The POST /execute handler of server.py. remote stands for the Modal
function call and yields the result dict or a raised exception. When body
parsing raises, the except block itself reads the unassigned local code
and the resulting UnboundLocalError escapes the handler. -/
def execute_code (remote : Json → Except PyExn JObj)
    (httpPost : String → JObj → Except PyExn (Nat × String))
    (hmacHex : String → String → String) (secret : String)
    (loggerUrl : Option String) (vuln : Bool) (req : ExecRequest) :
    Except PyExn HandlerResult :=
  match extractCode req with
  | .error _ => .error unboundLocalExn
  | .ok code =>
    match remote code with
    | .ok result =>
      let responseData := successResponseData vuln result
      match log_to_sidecar hmacHex secret loggerUrl httpPost code responseData
          req.clientIp req.userAgent with
      | .ok _ => .ok ⟨200, .jobj responseData⟩
      | .error e2 => executeExcept hmacHex secret loggerUrl httpPost vuln code req e2
    | .error e => executeExcept hmacHex secret loggerUrl httpPost vuln code req e

/-! ## Remote execution function: modal_function.py

The Python compile, exec and eval machinery is abstracted into an oracle:
each primitive yields the text it printed to the redirected stdout and
either a value or a raised exception. The result values of eval are an
arbitrary type, because any Python object can come back. sys.stdout is
explicit state, redirected into the capture buffer at entry and restored
by the finally block. -/

/-- Where sys.stdout points. -/
inductive StdoutDest where
  | original (tag : Nat)
  | captured
deriving DecidableEq

/-- The interpreter state the function touches: the sys.stdout binding. -/
structure IoSt where
  stdout : StdoutDest
deriving DecidableEq

/-- Behaviour of the Python primitives run_untrusted_code invokes, over
result type a. compileExec is compile(code, exec); execStmts runs the
compiled statements and reports printed text plus an optional exception;
evalLast evaluates the final line in the globals left by exec; evalWhole
is the eval of the whole code in the SyntaxError fallback. -/
structure RunOracle (a : Type) where
  username : String
  uid : Nat
  compileExec : String → Option PyExn
  execStmts : String → String × Option PyExn
  evalLast : String → String × Except PyExn a
  evalWhole : String → String × Except PyExn a

/-- A value of the returned dict: Python None, a string, or an arbitrary
object produced by eval. -/
inductive PyVal (a : Type) where
  | pynone
  | pystr (s : String)
  | pyobj (v : a)

/-- The keyword heads after which the last line is not treated as an
expression. -/
def execKeywords : List String :=
  ["import ", "from ", "def ", "class ", "if ", "for ", "while ", "with ",
   "try:", "except"]

/-- Whether the stripped last line starts with one of the statement
keywords. -/
def startsWithAnyKw (s : String) : Bool :=
  execKeywords.any (fun kw => lcStarts kw.data s.data)

/-- The error string of the outer exception handler:
type name, str() text, newline, traceback.format_exc() text. -/
def describeExn (e : PyExn) : String :=
  e.name ++ ": " ++ e.msg ++ "\n" ++ e.tb

/-- The context line printed at the top of the try block. -/
def contextLine (o : RunOracle a) : String :=
  "Executing in container as user: " ++ o.username ++ " (uid: " ++
    toString o.uid ++ ")\n"

/-- The body of run_untrusted_code between the stdout redirection and the
finally block: the final result value, the text accumulated in the capture
buffer, and the exception reaching the outer handler, if any. -/
def runCore (o : RunOracle a) (code0 : String) :
    Option a × String × Option PyExn :=
  let ctx := contextLine o
  let code := pyStrip code0
  if code = "" then (none, ctx, none)
  else
    match o.compileExec code with
    | none =>
      match o.execStmts code with
      | (out1, none) =>
        let lines := code.splitOn "\n"
        let lastLine := pyStrip (lines.getLastD "")
        if lastLine ≠ "" && !(startsWithAnyKw lastLine) then
          match o.evalLast lastLine with
          | (out2, .ok v) => (some v, ctx ++ out1 ++ out2, none)
          | (out2, .error _) => (none, ctx ++ out1 ++ out2, none)
        else (none, ctx ++ out1, none)
      | (out1, some e) =>
        if e.name = "SyntaxError" then
          match o.evalWhole code with
          | (outw, .ok v) => (some v, ctx ++ out1 ++ outw, none)
          | (outw, .error e2) => (none, ctx ++ out1 ++ outw, some e2)
        else (none, ctx ++ out1, some e)
    | some ce =>
      if ce.name = "SyntaxError" then
        match o.evalWhole code with
        | (outw, .ok v) => (some v, ctx ++ outw, none)
        | (outw, .error e2) => (none, ctx ++ outw, some e2)
      else (none, ctx, some ce)

/-- The result entry of the returned dict. -/
def resultVal : Option a → PyVal a
  | none => .pynone
  | some v => .pyobj v

/-- The error entry of the returned dict. -/
def errorVal (a : Type) : Option PyExn → PyVal a
  | none => .pynone
  | some e => .pystr (describeExn e)

/-- run_untrusted_code of modal_function.py: redirect stdout into the
capture buffer, run the body with every exception caught by the outer
handler, restore stdout in the finally block, and return the dict with
the result, output and error entries. -/
def run_untrusted_code (o : RunOracle a) (code : String) (s : IoSt) :
    List (String × PyVal a) × IoSt :=
  let old_stdout := s.stdout
  let s1 : IoSt := { s with stdout := .captured }
  let r := runCore o code
  let s2 : IoSt := { s1 with stdout := old_stdout }
  ([("result", resultVal r.1), ("output", .pystr r.2.1),
    ("error", errorVal a r.2.2)], s2)

/-! ## Shared helper lemmas -/

/-- log_to_sidecar returns on every path: both the unset-URL early return
and the try block with its catch-all except produce a value. -/
theorem lts_ok (hmacHex : String → String → String) (secret : String)
    (loggerUrl : Option String)
    (httpPost : String → JObj → Except PyExn (Nat × String))
    (code : Json) (output : JObj) (clientIp userAgent : String) :
    log_to_sidecar hmacHex secret loggerUrl httpPost code output clientIp userAgent =
      .ok () := by
  unfold log_to_sidecar
  split
  · rfl
  · cases h2 : httpPost (loggerUrl.getD "" ++ "/log")
        ((logDataOf code output clientIp userAgent).snoc "hmac_signature"
          (Json.jstr (frontSignature hmacHex secret code output clientIp userAgent))) with
    | ok u => simp [h2]
    | error e => simp [h2]

/-- When the oracle accepts every listed operation, runOps attempts all of
them and reports success. -/
theorem runOps_all_ok (fsOk : FsOp → Bool) (ops : List FsOp)
    (h : ∀ op ∈ ops, fsOk op = true) (fs : FsState) :
    (runOps fsOk fs ops).1 = ops ∧ (runOps fsOk fs ops).2.2 = true := by
  induction ops generalizing fs with
  | nil => simp [runOps]
  | cons op rest ih =>
    have hop : fsOk op = true := h op (by simp)
    have hrest : ∀ o ∈ rest, fsOk o = true := fun o ho => h o (by simp [ho])
    simp [runOps, hop]
    exact ih hrest (applyOp fs op)

/-- The attempted trace and the success flag of runOps do not depend on
the starting filesystem contents. -/
theorem runOps_fs_indep (fsOk : FsOp → Bool) (ops : List FsOp)
    (fs1 fs2 : FsState) :
    (runOps fsOk fs1 ops).1 = (runOps fsOk fs2 ops).1 ∧
    (runOps fsOk fs1 ops).2.2 = (runOps fsOk fs2 ops).2.2 := by
  induction ops generalizing fs1 fs2 with
  | nil => simp [runOps]
  | cons op rest ih =>
    by_cases hop : fsOk op = true
    · simp [runOps, hop]
      exact ih (applyOp fs1 op) (applyOp fs2 op)
    · simp [runOps, hop]

/-- A found key determines dict.get. -/
theorem JObj.getD_of_found {k : String} {v d : Json} :
    (o : JObj) → JObj.find? k o = some v → JObj.getD k d o = v
  | .nil, h => by simp [JObj.find?] at h
  | .cons k2 v2 tl, h => by
    by_cases hk : k2 = k
    · simp [JObj.find?, hk] at h
      simp [JObj.getD, hk, h]
    · simp [JObj.find?, hk] at h
      simp [JObj.getD, hk]
      exact JObj.getD_of_found tl h

/-- An absent key makes dict.get return the default. -/
theorem JObj.getD_of_absent {k : String} {d : Json} :
    (o : JObj) → JObj.find? k o = none → JObj.getD k d o = d
  | .nil, _ => by simp [JObj.getD]
  | .cons k2 v2 tl, h => by
    by_cases hk : k2 = k
    · simp [JObj.find?, hk] at h
    · simp [JObj.find?, hk] at h
      simp [JObj.getD, hk]
      exact JObj.getD_of_absent tl h

/-! ## Claim theorems -/

/-- C9: strip_quotes removes the first and last character exactly when the
value has length at least two and both are double quotes or both are
single quotes; a lone quote, mismatched surrounding quotes and the empty
string come back unchanged; and get_env strips only a present value,
preferring the environment over the default. -/
theorem c9_strip_quotes_and_get_env :
    (∀ (s : String) (c0 c1 : Char) (rest : List Char),
      s.data = c0 :: c1 :: rest →
      (((c0 = qdq ∧ List.getLastD (c1 :: rest) c0 = qdq) ∨
        (c0 = qsq ∧ List.getLastD (c1 :: rest) c0 = qsq)) →
          strip_quotes s = String.mk ((c1 :: rest).dropLast)) ∧
      (¬ ((c0 = qdq ∧ List.getLastD (c1 :: rest) c0 = qdq) ∨
        (c0 = qsq ∧ List.getLastD (c1 :: rest) c0 = qsq)) →
          strip_quotes s = s)) ∧
    (∀ s : String, s.data.length < 2 → strip_quotes s = s) ∧
    strip_quotes "" = "" ∧
    (∀ (env : String → Option String) (key : String) (dflt : Option String),
      (env key = none → dflt = none → get_env env key dflt = none) ∧
      (∀ v, env key = some v → get_env env key dflt = some (strip_quotes v)) ∧
      (∀ v, env key = none → dflt = some v →
        get_env env key dflt = some (strip_quotes v))) := by
  refine ⟨?_, ?_, rfl, ?_⟩
  · intro s c0 c1 rest hdata
    constructor
    · intro hq
      unfold strip_quotes
      rw [hdata]
      simp only [stripQuotesCore]
      rw [if_pos hq]
    · intro hq
      unfold strip_quotes
      rw [hdata]
      simp only [stripQuotesCore]
      rw [if_neg hq, ← hdata]
  · intro s hlen
    have hcore : stripQuotesCore s.data = s.data := by
      match hdata : s.data with
      | [] => rfl
      | [c] => rfl
      | c0 :: c1 :: rest => rw [hdata] at hlen; simp at hlen; omega
    unfold strip_quotes
    rw [hcore]
  · intro env key dflt
    refine ⟨?_, ?_, ?_⟩
    · intro h1 h2
      simp [get_env, h1, h2]
    · intro v hv
      simp [get_env, hv]
    · intro v h1 h2
      simp [get_env, h1, h2]

/-- Witness for C9 at concrete inputs: a double-quoted value is stripped,
a value with mismatched surrounding quotes is unchanged, and an absent
variable with no default yields no value. -/
theorem c9_witness :
    strip_quotes (String.mk [qdq, 'a', 'b', qdq]) = "ab" ∧
    strip_quotes (String.mk [qsq, 'x']) = String.mk [qsq, 'x'] ∧
    get_env (fun _ => none) "LOGGER_URL" none = none := by
  refine ⟨?_, ?_, ?_⟩
  · have h := ((c9_strip_quotes_and_get_env.1
      (String.mk [qdq, 'a', 'b', qdq]) qdq 'a' ['b', qdq] (by decide)).1
      (by decide))
    rw [h]; decide
  · exact (c9_strip_quotes_and_get_env.1
      (String.mk [qsq, 'x']) qsq 'x' [] (by decide)).2 (by decide)
  · exact ((c9_strip_quotes_and_get_env.2.2.2 (fun _ => none) "LOGGER_URL" none).1)
      rfl rfl

/-- C10: run_untrusted_code leaves sys.stdout as it found it on every
path, for every behaviour of the compile, exec and eval primitives: the
finally block restores the binding saved before the redirection. -/
theorem c10_stdout_restored (a : Type) (o : RunOracle a) (code : String)
    (s : IoSt) :
    (run_untrusted_code o code s).2.stdout = s.stdout ∧
    (run_untrusted_code o code s).2 = s := by
  exact ⟨rfl, rfl⟩

/-- The expected signature as claim C1 describes it: the keyed digest of
the sort_keys JSON serialization of the entry fields with hmac_signature
removed. -/
def claimExpectedSig (hmacHex : String → String → String) (secret : String)
    (entry : LogEntry) : String :=
  hmacHex secret (pyDumps true (.jobj (JObj.removeKey "hmac_signature" (modelDump entry))))

/-- C1: the POST /log handler answers 403 Invalid signature exactly when
the submitted hmac_signature differs from the keyed digest of the
sort_keys serialization of the other fields, for every digest primitive,
secret, clock value and disk behaviour; a matching signature instead
enters the logging block, whose first filesystem operation is attempted. -/
theorem c1_log_403_iff_bad_signature (hmacHex : String → String → String)
    (secret : String) (fsOk : FsOp → Bool) (ts isoTs : String)
    (entry : LogEntry) (fs : FsState) :
    ((log_entry hmacHex secret fsOk ts isoTs entry fs).response =
        .error (403, "Invalid signature") ↔
      entry.hmac_signature ≠ claimExpectedSig hmacHex secret entry) ∧
    (entry.hmac_signature = claimExpectedSig hmacHex secret entry →
      ∃ rest, (log_entry hmacHex secret fsOk ts isoTs entry fs).performed =
        FsOp.mkdir "/logs" 0o750 :: rest) := by
  have hv : verify_hmac hmacHex secret (modelDump entry) entry.hmac_signature =
      (entry.hmac_signature == claimExpectedSig hmacHex secret entry) := rfl
  constructor
  · by_cases hc : entry.hmac_signature = claimExpectedSig hmacHex secret entry
    · unfold log_entry
      rw [hv, hc]
      simp only [beq_self_eq_true, Bool.not_true, Bool.false_eq_true, if_false]
      constructor
      · intro habs
        split at habs
        · simp at habs
        · simp at habs
      · intro hne
        exact absurd rfl hne
    · unfold log_entry
      rw [hv]
      have : (entry.hmac_signature == claimExpectedSig hmacHex secret entry) = false := by
        simp [hc]
      rw [this]
      simp only [Bool.not_false, if_true]
      simp [hc]
  · intro hc
    unfold log_entry
    rw [hv, hc]
    simp only [beq_self_eq_true, Bool.not_true, Bool.false_eq_true, if_false]
    unfold logOps runOps
    by_cases hm : fsOk (FsOp.mkdir "/logs" 0o750) = true
    · rw [if_pos hm]
      split <;> exact ⟨_, rfl⟩
    · rw [if_neg hm]
      split <;> exact ⟨_, rfl⟩

/-- Concrete digest primitive for witnesses: key and message joined by a
hash mark. -/
def cHmac : String → String → String := fun k m => k ++ "#" ++ m

/-- Concrete output dict for witnesses. -/
def wOut : JObj := .cons "success" (.jbool true) (.cons "mode" (.jstr "secure") .nil)

/-- Witness log entry before signing. -/
def wEntryBase : LogEntry :=
  { code := "print(1)", output := wOut, client_ip := "203.0.113.7",
    user_agent := "curl/8", hmac_signature := "x" }

/-- Witness log entry carrying the matching signature. -/
def wEntry : LogEntry :=
  { wEntryBase with hmac_signature := claimExpectedSig cHmac "sec" wEntryBase }

/-- Witness for C1: the concretely signed entry is not rejected and the
logging block starts with the mkdir of /logs. -/
theorem c1_witness :
    ∃ rest, (log_entry cHmac "sec" (fun _ => true) "ts1" "iso1" wEntry []).performed =
      FsOp.mkdir "/logs" 0o750 :: rest :=
  (c1_log_403_iff_bad_signature cHmac "sec" (fun _ => true) "ts1" "iso1" wEntry []).2
    (by rfl)

/-- C2: a record signed by the front end is accepted by the sidecar. For
every shared secret and digest primitive, the signature log_to_sidecar
computes over the four-field log_data dict equals the signature
verify_hmac recomputes from the received five-field entry, so
verification succeeds and the handler does not answer 403. -/
theorem c2_front_signature_accepted (hmacHex : String → String → String)
    (secret code clientIp userAgent : String) (output : JObj) :
    (verify_hmac hmacHex secret
      (modelDump
        { code := code, output := output, client_ip := clientIp,
          user_agent := userAgent,
          hmac_signature :=
            frontSignature hmacHex secret (.jstr code) output clientIp userAgent })
      (frontSignature hmacHex secret (.jstr code) output clientIp userAgent) = true) ∧
    (∀ (fsOk : FsOp → Bool) (ts isoTs : String) (fs : FsState),
      (log_entry hmacHex secret fsOk ts isoTs
        { code := code, output := output, client_ip := clientIp,
          user_agent := userAgent,
          hmac_signature :=
            frontSignature hmacHex secret (.jstr code) output clientIp userAgent }
        fs).response ≠ .error (403, "Invalid signature")) := by
  have hrm : JObj.removeKey "hmac_signature"
      (modelDump
        { code := code, output := output, client_ip := clientIp,
          user_agent := userAgent,
          hmac_signature :=
            frontSignature hmacHex secret (.jstr code) output clientIp userAgent }) =
      logDataOf (.jstr code) output clientIp userAgent := by
    simp +decide [modelDump, JObj.removeKey, logDataOf]
  have hv : verify_hmac hmacHex secret
      (modelDump
        { code := code, output := output, client_ip := clientIp,
          user_agent := userAgent,
          hmac_signature :=
            frontSignature hmacHex secret (.jstr code) output clientIp userAgent })
      (frontSignature hmacHex secret (.jstr code) output clientIp userAgent) = true := by
    unfold verify_hmac
    rw [hrm]
    simp [frontSignature]
  refine ⟨hv, ?_⟩
  intro fsOk ts isoTs fs
  unfold log_entry
  rw [hv]
  simp only [Bool.not_true, Bool.false_eq_true, if_false]
  split
  · simp
  · simp

/-- Witness for C2 at concrete inputs: the concretely signed record passes
verification and is not rejected. -/
theorem c2_witness :
    verify_hmac cHmac "sec"
      (modelDump
        { code := "1+1", output := wOut, client_ip := "198.51.100.2",
          user_agent := "ua",
          hmac_signature := frontSignature cHmac "sec" (.jstr "1+1") wOut "198.51.100.2" "ua" })
      (frontSignature cHmac "sec" (.jstr "1+1") wOut "198.51.100.2" "ua") = true ∧
    (log_entry cHmac "sec" (fun _ => true) "ts2" "iso2"
      { code := "1+1", output := wOut, client_ip := "198.51.100.2",
        user_agent := "ua",
        hmac_signature := frontSignature cHmac "sec" (.jstr "1+1") wOut "198.51.100.2" "ua" }
      []).response ≠ .error (403, "Invalid signature") := by
  have h := c2_front_signature_accepted cHmac "sec" "1+1" "198.51.100.2" "ua" wOut
  exact ⟨h.1, h.2 (fun _ => true) "ts2" "iso2" []⟩

/-- Concrete remote function for witnesses: a fixed result dict. -/
def cRemote : Json → Except PyExn JObj := fun _ =>
  .ok (.cons "result" .jnull (.cons "output" (.jstr "") (.cons "error" .jnull .nil)))

/-- Concrete remote function raising an exception. -/
def cRemoteFail : Json → Except PyExn JObj := fun _ =>
  .error { name := "RuntimeError", msg := "boom", tb := "tb" }

/-- Concrete HTTP client outcome for witnesses. -/
def cHttpPost : String → JObj → Except PyExn (Nat × String) := fun _ _ => .ok (200, "")

/-- A POST /execute request with JSON content type whose body fails to
parse. -/
def badReq : ExecRequest :=
  { contentType := "application/json",
    jsonBody := .error { name := "JSONDecodeError",
                         msg := "Expecting value: line 1 column 1 (char 0)", tb := "" },
    rawBody := .ok "not json", clientIp := "203.0.113.5", userAgent := "curl/8.0" }

/-- A POST /execute request with a plain-text body. -/
def rawReq : ExecRequest :=
  { contentType := "text/plain",
    jsonBody := .error { name := "JSONDecodeError", msg := "Expecting value", tb := "" },
    rawBody := .ok "print(1)", clientIp := "203.0.113.5", userAgent := "curl/8.0" }

/-- Counterexample to C3: on a JSON request whose body fails to parse, the
except block reads the never-assigned local code, and the resulting
UnboundLocalError escapes the handler instead of becoming a JSON 500
response. -/
theorem c3_counterexample :
    execute_code cRemote cHttpPost cHmac "sec" (some "http://logger:9090") false badReq =
      .error unboundLocalExn := by
  rfl

/-- C3 amended: an exception raised by the remote call, after the code was
extracted from the body, is caught and surfaced as a JSON 500 response
whose body has success false, an error message naming the exception, its
type name as details and the current mode; and whenever extraction
succeeds no exception escapes the handler. Exceptions raised during body
parsing are excluded: there the except block itself raises
UnboundLocalError, as the counterexample shows. -/
theorem c3_amended_remote_errors_surfaced (remote : Json → Except PyExn JObj)
    (httpPost : String → JObj → Except PyExn (Nat × String))
    (hmacHex : String → String → String) (secret : String)
    (loggerUrl : Option String) (vuln : Bool) :
    (∀ (req : ExecRequest) (code : Json) (e : PyExn),
      extractCode req = .ok code → remote code = .error e →
      execute_code remote httpPost hmacHex secret loggerUrl vuln req =
        .ok ⟨500, .jobj (errorResponseData vuln e)⟩) ∧
    (∀ (req : ExecRequest) (code : Json),
      extractCode req = .ok code →
      ∃ r, execute_code remote httpPost hmacHex secret loggerUrl vuln req = .ok r) ∧
    (∀ e : PyExn,
      JObj.getD "success" .jnull (errorResponseData vuln e) = .jbool false ∧
      JObj.getD "error" .jnull (errorResponseData vuln e) =
        .jstr ("Failed to execute code: " ++ e.msg) ∧
      JObj.getD "details" .jnull (errorResponseData vuln e) = .jstr e.name ∧
      JObj.getD "mode" .jnull (errorResponseData vuln e) = .jstr (modeStr vuln)) := by
  refine ⟨?_, ?_, ?_⟩
  · intro req code e hx hr
    simp only [execute_code, executeExcept, hx, hr, lts_ok]
  · intro req code hx
    cases hr : remote code with
    | ok result =>
      exact ⟨⟨200, .jobj (successResponseData vuln result)⟩,
        by simp only [execute_code, executeExcept, hx, hr, lts_ok]⟩
    | error e =>
      exact ⟨⟨500, .jobj (errorResponseData vuln e)⟩,
        by simp only [execute_code, executeExcept, hx, hr, lts_ok]⟩
  · intro e
    simp only [errorResponseData]
    split
    · refine ⟨?_, ?_, ?_, ?_⟩ <;> simp +decide [JObj.snoc, JObj.getD]
    · refine ⟨?_, ?_, ?_, ?_⟩ <;> simp +decide [JObj.getD]

/-- Witness for C3 amended: at the concrete failing remote and plain-text
request, the handler returns the 500 JSON error response. -/
theorem c3_amended_witness :
    execute_code cRemoteFail cHttpPost cHmac "sec" (some "http://logger:9090") false rawReq =
      .ok ⟨500, .jobj (errorResponseData false
        { name := "RuntimeError", msg := "boom", tb := "tb" })⟩ :=
  (c3_amended_remote_errors_surfaced cRemoteFail cHttpPost cHmac "sec"
    (some "http://logger:9090") false).1 rawReq (.jstr "print(1)")
    { name := "RuntimeError", msg := "boom", tb := "tb" } (by rfl) (by rfl)

/-- C4: log_to_sidecar returns normally for every configuration, payload
and HTTP outcome, including raised exceptions and non-200 statuses; and
the response of POST /execute is the same function of the request and the
remote outcome whatever the logging HTTP outcome is. -/
theorem c4_logging_never_breaks_execute (hmacHex : String → String → String)
    (secret : String) (loggerUrl : Option String)
    (httpPost httpPost2 : String → JObj → Except PyExn (Nat × String))
    (code : Json) (output : JObj) (clientIp userAgent : String)
    (remote : Json → Except PyExn JObj) (vuln : Bool) (req : ExecRequest) :
    log_to_sidecar hmacHex secret loggerUrl httpPost code output clientIp userAgent =
      .ok () ∧
    execute_code remote httpPost hmacHex secret loggerUrl vuln req =
      execute_code remote httpPost2 hmacHex secret loggerUrl vuln req := by
  refine ⟨lts_ok hmacHex secret loggerUrl httpPost code output clientIp userAgent, ?_⟩
  cases hx : extractCode req with
  | error e => simp only [execute_code, hx]
  | ok c =>
    cases hr : remote c with
    | ok result =>
      simp only [execute_code, executeExcept, hx, hr, lts_ok]
    | error e =>
      simp only [execute_code, executeExcept, hx, hr, lts_ok]

/-- C5: the code value passed to the remote function. With a content type
containing application/json case-insensitively, it is the code field of
the JSON object body, or the empty string when that field is absent; with
any other content type it is the UTF-8 decoded raw body. -/
theorem c5_code_extraction (req : ExecRequest) :
    (∀ (kvs : JObj) (v : Json),
      strHas (pyLower req.contentType) (pyLower "application/json") = true →
      req.jsonBody = .ok (.jobj kvs) → JObj.find? "code" kvs = some v →
      extractCode req = .ok v) ∧
    (∀ kvs : JObj,
      strHas (pyLower req.contentType) (pyLower "application/json") = true →
      req.jsonBody = .ok (.jobj kvs) → JObj.find? "code" kvs = none →
      extractCode req = .ok (.jstr "")) ∧
    (∀ s : String,
      strHas (pyLower req.contentType) (pyLower "application/json") = false →
      req.rawBody = .ok s →
      extractCode req = .ok (.jstr s)) := by
  have hlow : pyLower "application/json" = "application/json" := by decide
  rw [hlow]
  refine ⟨?_, ?_, ?_⟩
  · intro kvs v hct hb hf
    simp only [extractCode, hct, hb, if_true]
    rw [JObj.getD_of_found kvs hf]
  · intro kvs hct hb hf
    simp only [extractCode, hct, hb, if_true]
    rw [JObj.getD_of_absent kvs hf]
  · intro s hct hb
    simp only [extractCode, hct, hb, Bool.false_eq_true, if_false]

/-- Witness for C5 at concrete requests: a JSON body with a code field, a
JSON body without one, and a plain-text body. -/
theorem c5_witness :
    extractCode
      { contentType := "Application/JSON; charset=utf-8",
        jsonBody := .ok (.jobj (.cons "code" (.jstr "2+2") .nil)),
        rawBody := .ok "ignored", clientIp := "c", userAgent := "u" } =
      .ok (.jstr "2+2") ∧
    extractCode
      { contentType := "application/json",
        jsonBody := .ok (.jobj (.cons "other" .jnull .nil)),
        rawBody := .ok "ignored", clientIp := "c", userAgent := "u" } =
      .ok (.jstr "") ∧
    extractCode rawReq = .ok (.jstr "print(1)") := by
  refine ⟨?_, ?_, ?_⟩
  · exact (c5_code_extraction
      { contentType := "Application/JSON; charset=utf-8",
        jsonBody := .ok (.jobj (.cons "code" (.jstr "2+2") .nil)),
        rawBody := .ok "ignored", clientIp := "c", userAgent := "u" }).1
      (.cons "code" (.jstr "2+2") .nil) (.jstr "2+2") (by decide) rfl (by decide)
  · exact (c5_code_extraction
      { contentType := "application/json",
        jsonBody := .ok (.jobj (.cons "other" .jnull .nil)),
        rawBody := .ok "ignored", clientIp := "c", userAgent := "u" }).2.1
      (.cons "other" .jnull .nil) (by decide) rfl (by decide)
  · exact (c5_code_extraction rawReq).2.2 "print(1)" (by decide) rfl

/-- Paths of the write_text calls in an operation trace. -/
def writePaths (ops : List FsOp) : List String :=
  ops.filterMap (fun op => match op with
    | .writeText p _ => some p
    | _ => none)

/-- Path and mode of each chmod call in an operation trace. -/
def chmodCalls (ops : List FsOp) : List (String × Nat) :=
  ops.filterMap (fun op => match op with
    | .chmod p m => some (p, m)
    | _ => none)

/-- C6: a verified and fully successful POST /log request attempts exactly
the operations of logOps, writes exactly the three files named by the
timestamp, performs exactly three chmod calls, one per written file, each
setting mode 640 octal, and answers with the logged status. -/
theorem c6_three_files_three_chmods (hmacHex : String → String → String)
    (secret : String) (fsOk : FsOp → Bool) (ts isoTs : String)
    (entry : LogEntry) (fs : FsState)
    (hv : verify_hmac hmacHex secret (modelDump entry) entry.hmac_signature = true)
    (hok : ∀ op ∈ logOps ts isoTs entry, fsOk op = true) :
    (log_entry hmacHex secret fsOk ts isoTs entry fs).performed =
      logOps ts isoTs entry ∧
    writePaths (log_entry hmacHex secret fsOk ts isoTs entry fs).performed =
      ["/logs/" ++ ts ++ "-metadata.json", "/logs/" ++ ts ++ "-input.txt",
       "/logs/" ++ ts ++ "-output.json"] ∧
    chmodCalls (log_entry hmacHex secret fsOk ts isoTs entry fs).performed =
      [("/logs/" ++ ts ++ "-metadata.json", 0o640),
       ("/logs/" ++ ts ++ "-input.txt", 0o640),
       ("/logs/" ++ ts ++ "-output.json", 0o640)] ∧
    (chmodCalls (log_entry hmacHex secret fsOk ts isoTs entry fs).performed).length = 3 ∧
    (log_entry hmacHex secret fsOk ts isoTs entry fs).response =
      .ok (.jobj (.cons "status" (.jstr "logged")
        (.cons "timestamp" (.jstr ts) .nil))) := by
  have hrun := runOps_all_ok fsOk (logOps ts isoTs entry) hok fs
  have hperf : (log_entry hmacHex secret fsOk ts isoTs entry fs).performed =
      logOps ts isoTs entry := by
    unfold log_entry
    rw [hv]
    simp only [Bool.not_true, Bool.false_eq_true, if_false]
    rw [hrun.2]
    simp only [if_true]
    exact hrun.1
  refine ⟨hperf, ?_, ?_, ?_, ?_⟩
  · rw [hperf]
    simp [logOps, writePaths]
  · rw [hperf]
    simp [logOps, chmodCalls]
  · rw [hperf]
    simp [logOps, chmodCalls]
  · unfold log_entry
    rw [hv]
    simp only [Bool.not_true, Bool.false_eq_true, if_false]
    rw [hrun.2]
    simp only [if_true]

/-- Witness for C6: the concretely signed entry with an always-succeeding
disk produces the three writes and three chmod calls. -/
theorem c6_witness :
    chmodCalls (log_entry cHmac "sec" (fun _ => true) "t3" "i3" wEntry []).performed =
      [("/logs/t3-metadata.json", 0o640), ("/logs/t3-input.txt", 0o640),
       ("/logs/t3-output.json", 0o640)] ∧
    writePaths (log_entry cHmac "sec" (fun _ => true) "t3" "i3" wEntry []).performed =
      ["/logs/t3-metadata.json", "/logs/t3-input.txt", "/logs/t3-output.json"] := by
  have h := c6_three_files_three_chmods cHmac "sec" (fun _ => true) "t3" "i3" wEntry []
    (by rfl) (fun op _ => rfl)
  exact ⟨h.2.2.1, h.2.1⟩

/-- C8: the logger is write-only. The response and attempted operations of
POST /log do not depend on the stored log files; a successful response is
exactly the logged status with the timestamp; GET /health is exactly the
healthy status whatever is stored; and the service registers no route
beyond POST /log and GET /health. -/
theorem c8_write_only_service (hmacHex : String → String → String)
    (secret : String) (fsOk : FsOp → Bool) (ts isoTs : String)
    (entry : LogEntry) (fs1 fs2 : FsState) :
    ((log_entry hmacHex secret fsOk ts isoTs entry fs1).response =
      (log_entry hmacHex secret fsOk ts isoTs entry fs2).response ∧
     (log_entry hmacHex secret fsOk ts isoTs entry fs1).performed =
      (log_entry hmacHex secret fsOk ts isoTs entry fs2).performed) ∧
    (∀ j : Json, (log_entry hmacHex secret fsOk ts isoTs entry fs1).response = .ok j →
      j = .jobj (.cons "status" (.jstr "logged") (.cons "timestamp" (.jstr ts) .nil))) ∧
    health fs1 = .jobj (.cons "status" (.jstr "healthy") .nil) ∧
    health fs1 = health fs2 ∧
    loggerRoutes = [("POST", "/log"), ("GET", "/health")] := by
  have hind := runOps_fs_indep fsOk (logOps ts isoTs entry) fs1 fs2
  refine ⟨?_, ?_, rfl, rfl, rfl⟩
  · unfold log_entry
    split
    · exact ⟨rfl, rfl⟩
    · dsimp only
      rw [hind.1, hind.2]
      split
      · exact ⟨rfl, rfl⟩
      · exact ⟨rfl, rfl⟩
  · intro j hj
    unfold log_entry at hj
    split at hj
    · simp at hj
    · dsimp only at hj
      split at hj
      · simp at hj
        exact hj.symm
      · simp at hj

/-- Witness for C8: at a stored state holding an earlier log file, the
response matches the empty-state response and health is the constant
healthy body. -/
theorem c8_witness :
    (log_entry cHmac "sec" (fun _ => true) "t4" "i4" wEntry
      [⟨"/logs/old", "secret data", 416⟩]).response =
      (log_entry cHmac "sec" (fun _ => true) "t4" "i4" wEntry []).response ∧
    health [⟨"/logs/old", "secret data", 416⟩] =
      .jobj (.cons "status" (.jstr "healthy") .nil) := by
  have h := c8_write_only_service cHmac "sec" (fun _ => true) "t4" "i4" wEntry
    [⟨"/logs/old", "secret data", 416⟩] []
  exact ⟨h.1.1, h.2.2.1⟩

/-- C7: the dict returned by run_untrusted_code has exactly the keys
result, output and error in that order; the output entry is the captured
buffer text; the error entry is Python None or the describing string of
the exception that reached the outer handler; a clean compile and exec
leaves the error entry None; and any non-None result value was produced
by the eval of the final line or by the whole-code eval fallback. -/
theorem c7_run_returns_result_output_error (a : Type) (o : RunOracle a)
    (code : String) (s : IoSt) :
    (run_untrusted_code o code s).1 =
      [("result", resultVal (runCore o code).1),
       ("output", PyVal.pystr (runCore o code).2.1),
       ("error", errorVal a (runCore o code).2.2)] ∧
    (run_untrusted_code o code s).1.map Prod.fst = ["result", "output", "error"] ∧
    ((runCore o code).2.2 = none ∨
      ∃ e, (runCore o code).2.2 = some e ∧
        errorVal a (runCore o code).2.2 = .pystr (describeExn e)) ∧
    (o.compileExec (pyStrip code) = none →
      (o.execStmts (pyStrip code)).2 = none →
      (runCore o code).2.2 = none) ∧
    (∀ v : a, (runCore o code).1 = some v →
      (∃ ll out2, o.evalLast ll = (out2, Except.ok v)) ∨
      (∃ outw, o.evalWhole (pyStrip code) = (outw, Except.ok v))) := by
  refine ⟨rfl, rfl, ?_, ?_, ?_⟩
  · cases he : (runCore o code).2.2 with
    | none => exact Or.inl rfl
    | some e =>
      refine Or.inr ⟨e, rfl, ?_⟩
      rfl
  · intro hc he
    rcases hp : o.execStmts (pyStrip code) with ⟨out1, oe⟩
    rw [hp] at he
    dsimp only at he
    subst he
    by_cases hz : pyStrip code = ""
    · simp only [runCore, if_pos hz]
    · simp only [runCore, if_neg hz, hc, hp]
      split
      · split <;> rfl
      · rfl
  · intro v hv
    by_cases hz : pyStrip code = ""
    · simp only [runCore, if_pos hz] at hv
      cases hv
    · cases hc : o.compileExec (pyStrip code) with
      | none =>
        rcases hp : o.execStmts (pyStrip code) with ⟨out1, oe⟩
        cases oe with
        | none =>
          simp only [runCore, if_neg hz, hc, hp] at hv
          split at hv
          · split at hv
            · rename_i heq
              simp only at hv
              cases hv with
              | refl => exact Or.inl ⟨_, _, heq⟩
            · simp only at hv
              cases hv
          · simp only at hv
            cases hv
        | some e =>
          simp only [runCore, if_neg hz, hc, hp] at hv
          split at hv
          · split at hv
            · rename_i heq
              simp only at hv
              cases hv with
              | refl => exact Or.inr ⟨_, heq⟩
            · simp only at hv
              cases hv
          · simp only at hv
            cases hv
      | some ce =>
        simp only [runCore, if_neg hz, hc] at hv
        split at hv
        · split at hv
          · rename_i heq
            simp only at hv
            cases hv with
            | refl => exact Or.inr ⟨_, heq⟩
          · simp only at hv
            cases hv
        · simp only at hv
          cases hv

/-- Concrete interpreter oracle for the C7 witness: clean compile and
exec, and evals returning small numbers. -/
def cOracle : RunOracle Nat :=
  { username := "root", uid := 0,
    compileExec := fun _ => none,
    execStmts := fun _ => ("", none),
    evalLast := fun _ => ("", .ok 2),
    evalWhole := fun _ => ("", .ok 7) }

/-- Witness for C7 at a concrete oracle and input: the dict has the three
keys and the error entry is None after a clean compile and exec. -/
theorem c7_witness :
    (run_untrusted_code cOracle "1+1" ⟨.original 0⟩).1.map Prod.fst =
      ["result", "output", "error"] ∧
    (runCore cOracle "1+1").2.2 = none := by
  have h := c7_run_returns_result_output_error Nat cOracle "1+1" ⟨.original 0⟩
  exact ⟨h.2.1, h.2.2.2.1 (by rfl) (by rfl)⟩
